import Mathlib

/-!
Verification of the core comparison algorithm of `vtkdiff` (src/vtkdiff.cpp).

The program compares two equally-shaped numeric data arrays and decides,
from configurable absolute and relative error thresholds, whether they are
close enough.  We shallowly embed the core of `main` (shape validation, the
accumulation scan, the per-element diagnostics, the report and the final
verdict) in Lean.

Numeric values read from the arrays are modelled as rationals.  The error
quantities computed by the program can be `+infinity` (the relative error is
set to `std::numeric_limits<double>::infinity()` when exactly one operand is
zero), so error values live in `EDouble`, the rationals extended with a
positive infinity.  For the operations the program performs on these values
(addition, multiplication of a value with itself, `std::max`, `<`
comparisons, `std::abs`, `std::min`) the IEEE-754 semantics on
non-NaN values agrees with this model; no NaN can arise in the scan from
finite inputs.
-/

/-- Error values of the program: a double that is either finite (modelled
exactly as a rational) or `+infinity`. -/
inductive EDouble where
  | fin (q : ℚ)
  | inf
deriving DecidableEq, Repr

namespace EDouble

/-- Addition (`+=` accumulation in the scan); anything plus infinity is
infinity, as for IEEE doubles away from NaN. -/
def add : EDouble → EDouble → EDouble
  | fin a, fin b => fin (a + b)
  | _, _ => inf

/-- Multiplication, used by the scan only as `x * x`; `inf * inf = inf`
as for IEEE doubles (the NaN-producing case `0 * inf` never occurs as the
two factors are always equal). -/
def mul : EDouble → EDouble → EDouble
  | fin a, fin b => fin (a * b)
  | _, _ => inf

/-- `std::max` on error values. -/
def emax : EDouble → EDouble → EDouble
  | fin a, fin b => fin (max a b)
  | _, _ => inf

/-- The strict `<` comparison on error values (`x > thr` in the source is
`blt thr x`). -/
def blt : EDouble → EDouble → Bool
  | fin a, fin b => decide (a < b)
  | fin _, inf => true
  | inf, _ => false

/-- The `≤` comparison on error values. -/
def ble : EDouble → EDouble → Bool
  | fin a, fin b => decide (a ≤ b)
  | _, inf => true
  | inf, fin _ => false

end EDouble

open EDouble

/-- A numeric data array as handed to the comparison core: the tuple count
(`GetNumberOfTuples`), the component arity (`GetNumberOfComponents`), the
numeric-type flag (`IsNumeric`), and the component accessor
(`GetComponent(tuple_idx, component_idx)`). -/
structure DataArray where
  numTuples : ℕ
  numComponents : ℕ
  numeric : Bool
  comp : ℕ → ℕ → ℚ

/-- The per-element relative error (src/vtkdiff.cpp lines 376-390):
zero on exact match, `+infinity` when exactly one operand is zero, and
otherwise the absolute error divided by the smaller magnitude. -/
def relErr (a_comp b_comp : ℚ) : EDouble :=
  let abs_err := |a_comp - b_comp|
  if abs_err = 0 then .fin 0
  else if a_comp = 0 ∨ b_comp = 0 then .inf
  else .fin (abs_err / min |a_comp| |b_comp|)

/-- The six per-component norm accumulator vectors of the scan
(src/vtkdiff.cpp lines 352-359), each indexed by component. -/
@[ext]
structure Norms where
  abs_err_norm_l1 : List EDouble
  abs_err_norm_2_2 : List EDouble
  abs_err_norm_max : List EDouble
  rel_err_norm_l1 : List EDouble
  rel_err_norm_2_2 : List EDouble
  rel_err_norm_max : List EDouble
deriving DecidableEq, Repr

/-- The zero-initialized accumulator vectors, one entry per component
(`std::vector<double> v(num_components)` value-initializes to `0.0`). -/
def initNorms (num_components : ℕ) : Norms :=
  { abs_err_norm_l1 := List.replicate num_components (.fin 0)
    abs_err_norm_2_2 := List.replicate num_components (.fin 0)
    abs_err_norm_max := List.replicate num_components (.fin 0)
    rel_err_norm_l1 := List.replicate num_components (.fin 0)
    rel_err_norm_2_2 := List.replicate num_components (.fin 0)
    rel_err_norm_max := List.replicate num_components (.fin 0) }

/-- `v[i] = f(v[i])` on an accumulator vector (out-of-range reads yield a
default, which the in-bounds scan never relies on). -/
def upd (l : List EDouble) (i : ℕ) (f : EDouble → EDouble) : List EDouble :=
  l.set i (f (l.getD i (.fin 0)))

/-- One per-element diagnostic line as printed by the verbose path
(src/vtkdiff.cpp lines 397-406): tuple index, component index, absolute
error and relative error. -/
structure Diag where
  tuple_idx : ℕ
  component_idx : ℕ
  abs_err : ℚ
  rel_err : EDouble
deriving DecidableEq, Repr

/-- The mutable state of the scan: the six norm vectors plus the stream of
diagnostic lines printed so far. -/
structure ScanState where
  norms : Norms
  diags : List Diag
deriving DecidableEq, Repr

/-- The loop body for one `(tuple_idx, component_idx)` pair
(src/vtkdiff.cpp lines 366-406): compute `abs_err` and `rel_err`, update
all six accumulators at this component, and print a diagnostic when both
errors strictly exceed their thresholds and verbose output is on. -/
def stepTC (A B : DataArray) (abs_err_thr rel_err_thr : ℚ) (verbose : Bool)
    (tuple_idx component_idx : ℕ) (st : ScanState) : ScanState :=
  let a_comp := A.comp tuple_idx component_idx
  let b_comp := B.comp tuple_idx component_idx
  let abs_err := |a_comp - b_comp|
  let rel_err := relErr a_comp b_comp
  let n := st.norms
  { norms :=
      { abs_err_norm_l1 := upd n.abs_err_norm_l1 component_idx (fun x => x.add (.fin abs_err))
        abs_err_norm_2_2 := upd n.abs_err_norm_2_2 component_idx
          (fun x => x.add (.fin (abs_err * abs_err)))
        abs_err_norm_max := upd n.abs_err_norm_max component_idx (fun x => emax x (.fin abs_err))
        rel_err_norm_l1 := upd n.rel_err_norm_l1 component_idx (fun x => x.add rel_err)
        rel_err_norm_2_2 := upd n.rel_err_norm_2_2 component_idx
          (fun x => x.add (rel_err.mul rel_err))
        rel_err_norm_max := upd n.rel_err_norm_max component_idx (fun x => emax x rel_err) }
    diags :=
      if blt (.fin abs_err_thr) (.fin abs_err) && blt (.fin rel_err_thr) rel_err && verbose
      then st.diags ++ [⟨tuple_idx, component_idx, abs_err, rel_err⟩]
      else st.diags }

/-- The nested scan loop (src/vtkdiff.cpp lines 361-408): tuples outer,
components inner, starting from zero-initialized accumulators and no
diagnostics printed. -/
def scan (A B : DataArray) (abs_err_thr rel_err_thr : ℚ) (verbose : Bool) : ScanState :=
  (List.range A.numTuples).foldl
    (fun st tuple_idx =>
      (List.range A.numComponents).foldl
        (fun st component_idx => stepTC A B abs_err_thr rel_err_thr verbose tuple_idx component_idx st)
        st)
    ⟨initNorms A.numComponents, []⟩

/-- Value of `*std::max_element(v.begin(), v.end())`: `none` on an empty
vector, where dereferencing the end iterator is undefined behaviour. -/
def maxElement : List EDouble → Option EDouble
  | [] => none
  | x :: xs => some (xs.foldl emax x)

/-- The errors the comparison core can report before the scan
(src/vtkdiff.cpp lines 315-347), each carrying the values the error
message prints. -/
inductive RunError where
  | notNumericA
  | notNumericB
  | tuplesDiffer (num_tuples_a num_tuples_b : ℕ)
  | componentsDiffer (num_components_a num_components_b : ℕ)
deriving DecidableEq, Repr

/-- The comparison core of `main` (src/vtkdiff.cpp lines 315-451) from the
point both arrays are in hand: validate numeric types and shapes
(`.error` = early `return EXIT_FAILURE` with the corresponding message),
run the scan, and decide.  `.ok (some true)` is the failing verdict
(`EXIT_FAILURE`: both maximum norms strictly exceed their thresholds),
`.ok (some false)` the passing one (`EXIT_SUCCESS`), and `.ok none` marks
the undefined dereference of `max_element` over empty norm vectors. -/
def run (A B : DataArray) (abs_err_thr rel_err_thr : ℚ) (verbose : Bool) :
    Except RunError (Option Bool) :=
  if !A.numeric then .error .notNumericA
  else if !B.numeric then .error .notNumericB
  else if A.numTuples ≠ B.numTuples then .error (.tuplesDiffer A.numTuples B.numTuples)
  else if A.numComponents ≠ B.numComponents then
    .error (.componentsDiffer A.numComponents B.numComponents)
  else
    let st := scan A B abs_err_thr rel_err_thr verbose
    match maxElement st.norms.abs_err_norm_max, maxElement st.norms.rel_err_norm_max with
    | some m_abs, some m_rel =>
        .ok (some (blt (.fin abs_err_thr) m_abs && blt (.fin rel_err_thr) m_rel))
    | _, _ => .ok none


/-! ## The non-quiet report (src/vtkdiff.cpp lines 411-438)

The printed values include square roots of the accumulated squared L2
norms, which are irrational in general, so the printed vectors are
modelled over the extended reals. -/

/-- A finite error value prints as its real value, infinity as `inf`. -/
noncomputable def toEReal : EDouble → EReal
  | .fin q => ((q : ℝ) : EReal)
  | .inf => ⊤

/-- `std::sqrt` applied to an error value, as a printed value (the report
only ever applies it to non-negative or infinite entries). -/
noncomputable def esqrt : EDouble → EReal
  | .fin q => ((Real.sqrt q : ℝ) : EReal)
  | .inf => ⊤

/-- The eight vectors printed by the non-quiet report, in print order
(src/vtkdiff.cpp lines 411-438): abs l1, abs l2-norm^2, abs l2-norm,
abs maximum, rel l1, rel l2-norm^2, the vector printed under the label
`rel l2-norm`, and rel maximum.  Note line 435 of the source computes the
square-rooted `rel_err_norm_2` but then streams `rel_err_norm_2_2`, so the
seventh printed vector is the un-square-rooted accumulator. -/
noncomputable def report (n : Norms) : List (List EReal) :=
  let abs_err_norm_2 := n.abs_err_norm_2_2.map esqrt
  let rel_err_norm_2 := n.rel_err_norm_2_2.map esqrt
  [n.abs_err_norm_l1.map toEReal,
   n.abs_err_norm_2_2.map toEReal,
   abs_err_norm_2,
   n.abs_err_norm_max.map toEReal,
   n.rel_err_norm_l1.map toEReal,
   n.rel_err_norm_2_2.map toEReal,
   n.rel_err_norm_2_2.map toEReal,
   n.rel_err_norm_max.map toEReal]

/-! ## Per-component decomposition of the scan

Each loop iteration updates only the entries of the six vectors at the
current component index, so the scan decomposes into independent
per-component scalar accumulations.  `CompAcc` is the view of the six
vectors at one component. -/

/-- The six accumulator entries of a single component. -/
structure CompAcc where
  al1 : EDouble
  al2 : EDouble
  amax : EDouble
  rl1 : EDouble
  rl2 : EDouble
  rmax : EDouble
deriving DecidableEq, Repr

/-- The all-zero accumulator entries of a freshly initialized component. -/
def CompAcc.zero : CompAcc := ⟨.fin 0, .fin 0, .fin 0, .fin 0, .fin 0, .fin 0⟩

/-- The effect of one scanned element pair on the accumulators of its
component. -/
def stepElem (a_comp b_comp : ℚ) (s : CompAcc) : CompAcc :=
  let abs_err := |a_comp - b_comp|
  let rel_err := relErr a_comp b_comp
  ⟨s.al1.add (.fin abs_err), s.al2.add (.fin (abs_err * abs_err)), emax s.amax (.fin abs_err),
   s.rl1.add rel_err, s.rl2.add (rel_err.mul rel_err), emax s.rmax rel_err⟩

/-- The six vectors of `Norms` viewed at component `c`. -/
def view (n : Norms) (c : ℕ) : CompAcc :=
  ⟨n.abs_err_norm_l1.getD c (.fin 0), n.abs_err_norm_2_2.getD c (.fin 0),
   n.abs_err_norm_max.getD c (.fin 0), n.rel_err_norm_l1.getD c (.fin 0),
   n.rel_err_norm_2_2.getD c (.fin 0), n.rel_err_norm_max.getD c (.fin 0)⟩

/-- All six vectors have length `k`. -/
def goodLen (n : Norms) (k : ℕ) : Prop :=
  n.abs_err_norm_l1.length = k ∧ n.abs_err_norm_2_2.length = k ∧
  n.abs_err_norm_max.length = k ∧ n.rel_err_norm_l1.length = k ∧
  n.rel_err_norm_2_2.length = k ∧ n.rel_err_norm_max.length = k

/-- The per-component scalar accumulation over the tuples: the closed form
of what the scan computes at component `c`. -/
def compScan (A B : DataArray) (c : ℕ) : CompAcc :=
  (List.range A.numTuples).foldl (fun s t => stepElem (A.comp t c) (B.comp t c) s) CompAcc.zero


/-- The diagnostic lines (none or one) that the element `(t, c)` prints. -/
def emitAt (A B : DataArray) (abs_err_thr rel_err_thr : ℚ) (verbose : Bool) (t c : ℕ) :
    List Diag :=
  let a_comp := A.comp t c
  let b_comp := B.comp t c
  let abs_err := |a_comp - b_comp|
  let rel_err := relErr a_comp b_comp
  if blt (.fin abs_err_thr) (.fin abs_err) && blt (.fin rel_err_thr) rel_err && verbose
  then [⟨t, c, abs_err, rel_err⟩] else []

/-- Every entry of an accumulator vector is non-negative. -/
def vecNonneg (l : List EDouble) : Prop := ∀ x ∈ l, ble (.fin 0) x = true

/-- Every entry of every norm vector is non-negative. -/
def normsNonneg (n : Norms) : Prop :=
  vecNonneg n.abs_err_norm_l1 ∧ vecNonneg n.abs_err_norm_2_2 ∧
  vecNonneg n.abs_err_norm_max ∧ vecNonneg n.rel_err_norm_l1 ∧
  vecNonneg n.rel_err_norm_2_2 ∧ vecNonneg n.rel_err_norm_max

/-- A one-component constant data array, used as concrete test input. -/
def constArr (num_tuples : ℕ) (q : ℚ) : DataArray :=
  ⟨num_tuples, 1, true, fun _ _ => q⟩

/-! ## Infrastructure lemmas -/

@[simp] theorem EDouble.add_fin (a b : ℚ) : add (fin a) (fin b) = fin (a + b) := rfl

@[simp] theorem EDouble.mul_fin (a b : ℚ) : mul (fin a) (fin b) = fin (a * b) := rfl

@[simp] theorem EDouble.emax_fin (a b : ℚ) : emax (fin a) (fin b) = fin (max a b) := rfl

@[simp] theorem EDouble.blt_fin (a b : ℚ) : blt (fin a) (fin b) = decide (a < b) := rfl

@[simp] theorem EDouble.ble_fin (a b : ℚ) : ble (fin a) (fin b) = decide (a ≤ b) := rfl

@[simp] theorem EDouble.add_inf (x : EDouble) : add x inf = inf := by cases x <;> rfl

@[simp] theorem EDouble.emax_inf (x : EDouble) : emax x inf = inf := by cases x <;> rfl

@[simp] theorem EDouble.blt_inf (a : ℚ) : blt (fin a) inf = true := rfl

theorem goodLen_initNorms (k : ℕ) : goodLen (initNorms k) k := by
  simp [goodLen, initNorms]

theorem length_upd (l : List EDouble) (i : ℕ) (f : EDouble → EDouble) :
    (upd l i f).length = l.length := by
  simp [upd]

theorem getD_upd_self (l : List EDouble) (i : ℕ) (f : EDouble → EDouble) (h : i < l.length) :
    (upd l i f).getD i (.fin 0) = f (l.getD i (.fin 0)) := by
  rw [upd, List.getD_eq_getD_get?, List.get?_eq_getElem?,
    List.getElem?_set_eq_of_lt _ h, Option.getD_some]

theorem getD_upd_ne (l : List EDouble) (i j : ℕ) (f : EDouble → EDouble) (h : i ≠ j) :
    (upd l i f).getD j (.fin 0) = l.getD j (.fin 0) := by
  rw [upd, List.getD_eq_getD_get?, List.get?_eq_getElem?, List.getElem?_set_ne h,
    List.getD_eq_getD_get?, List.get?_eq_getElem?]

theorem goodLen_stepTC (A B : DataArray) (athr rthr : ℚ) (vb : Bool) (t c k : ℕ)
    (st : ScanState) (h : goodLen st.norms k) :
    goodLen (stepTC A B athr rthr vb t c st).norms k := by
  obtain ⟨h1, h2, h3, h4, h5, h6⟩ := h
  exact ⟨by simp [stepTC, length_upd, h1], by simp [stepTC, length_upd, h2],
    by simp [stepTC, length_upd, h3], by simp [stepTC, length_upd, h4],
    by simp [stepTC, length_upd, h5], by simp [stepTC, length_upd, h6]⟩

theorem view_stepTC_self (A B : DataArray) (athr rthr : ℚ) (vb : Bool) (t c k : ℕ)
    (st : ScanState) (hlen : goodLen st.norms k) (hc : c < k) :
    view (stepTC A B athr rthr vb t c st).norms c =
      stepElem (A.comp t c) (B.comp t c) (view st.norms c) := by
  obtain ⟨h1, h2, h3, h4, h5, h6⟩ := hlen
  simp only [stepTC, view, stepElem]
  rw [getD_upd_self _ _ _ (h1 ▸ hc), getD_upd_self _ _ _ (h2 ▸ hc),
    getD_upd_self _ _ _ (h3 ▸ hc), getD_upd_self _ _ _ (h4 ▸ hc),
    getD_upd_self _ _ _ (h5 ▸ hc), getD_upd_self _ _ _ (h6 ▸ hc)]

theorem view_stepTC_ne (A B : DataArray) (athr rthr : ℚ) (vb : Bool) (t c c' : ℕ)
    (st : ScanState) (h : c ≠ c') :
    view (stepTC A B athr rthr vb t c st).norms c' = view st.norms c' := by
  simp only [stepTC, view]
  rw [getD_upd_ne _ _ _ _ h, getD_upd_ne _ _ _ _ h, getD_upd_ne _ _ _ _ h,
    getD_upd_ne _ _ _ _ h, getD_upd_ne _ _ _ _ h, getD_upd_ne _ _ _ _ h]

/-- One pass of the inner (component) loop over a duplicate-free list of
in-range component indices applies `stepElem` exactly once to each listed
component and leaves the others untouched. -/
theorem view_foldl_inner (A B : DataArray) (athr rthr : ℚ) (vb : Bool) (t k : ℕ)
    (L : List ℕ) (hnd : L.Nodup) (hmem : ∀ x ∈ L, x < k) :
    ∀ st : ScanState, goodLen st.norms k → ∀ c : ℕ,
      view (L.foldl (fun st c => stepTC A B athr rthr vb t c st) st).norms c =
        (if c ∈ L then stepElem (A.comp t c) (B.comp t c) (view st.norms c)
         else view st.norms c) := by
  induction L with
  | nil => intro st _ c; simp
  | cons c0 L' ih =>
    intro st hst c
    have hnd' : L'.Nodup := hnd.of_cons
    have hc0 : c0 ∉ L' := (List.nodup_cons.mp hnd).1
    have hmem' : ∀ x ∈ L', x < k := fun x hx => hmem x (List.mem_cons_of_mem _ hx)
    have hst' : goodLen (stepTC A B athr rthr vb t c0 st).norms k :=
      goodLen_stepTC A B athr rthr vb t c0 k st hst
    rw [List.foldl_cons, ih hnd' hmem' _ hst' c]
    by_cases hc : c = c0
    · subst hc
      rw [if_neg hc0, if_pos (List.mem_cons_self c L'),
        view_stepTC_self A B athr rthr vb t c k st hst (hmem c (List.mem_cons_self c L'))]
    · rw [view_stepTC_ne A B athr rthr vb t c0 c st (fun h => hc h.symm)]
      by_cases hcL : c ∈ L'
      · rw [if_pos hcL, if_pos (List.mem_cons_of_mem _ hcL)]
      · rw [if_neg hcL, if_neg (by simp [hc, hcL])]

theorem goodLen_foldl_inner (A B : DataArray) (athr rthr : ℚ) (vb : Bool) (t k : ℕ)
    (L : List ℕ) :
    ∀ st : ScanState, goodLen st.norms k →
      goodLen (L.foldl (fun st c => stepTC A B athr rthr vb t c st) st).norms k := by
  induction L with
  | nil => intro st hst; simpa using hst
  | cons c0 L' ih =>
    intro st hst
    rw [List.foldl_cons]
    exact ih _ (goodLen_stepTC A B athr rthr vb t c0 k st hst)

theorem view_initNorms (k c : ℕ) : view (initNorms k) c = CompAcc.zero := by
  have h : (List.replicate k (EDouble.fin 0)).getD c (.fin 0) = EDouble.fin 0 := by
    rw [List.getD_eq_getD_get?, List.get?_eq_getElem?, List.getElem?_replicate]
    split <;> simp
  simp [view, initNorms, CompAcc.zero, h]

theorem goodLen_scan_aux (A B : DataArray) (athr rthr : ℚ) (vb : Bool) (T : List ℕ) :
    ∀ st : ScanState, goodLen st.norms A.numComponents →
      goodLen ((T.foldl (fun st tuple_idx => (List.range A.numComponents).foldl
          (fun st component_idx => stepTC A B athr rthr vb tuple_idx component_idx st) st)
        st)).norms A.numComponents := by
  induction T with
  | nil => intro st h; simpa using h
  | cons t T' ih =>
    intro st h
    rw [List.foldl_cons]
    exact ih _ (goodLen_foldl_inner A B athr rthr vb t A.numComponents _ st h)

/-- Every intermediate and final state of the scan keeps all six norm
vectors at length `numComponents`. -/
theorem goodLen_scan (A B : DataArray) (athr rthr : ℚ) (vb : Bool) :
    goodLen (scan A B athr rthr vb).norms A.numComponents :=
  goodLen_scan_aux A B athr rthr vb (List.range A.numTuples)
    ⟨initNorms A.numComponents, []⟩ (goodLen_initNorms A.numComponents)

theorem view_scan_aux (A B : DataArray) (athr rthr : ℚ) (vb : Bool) (c : ℕ)
    (hc : c < A.numComponents) (T : List ℕ) :
    ∀ st : ScanState, goodLen st.norms A.numComponents →
      view ((T.foldl (fun st tuple_idx => (List.range A.numComponents).foldl
          (fun st component_idx => stepTC A B athr rthr vb tuple_idx component_idx st) st)
        st)).norms c =
      T.foldl (fun s t => stepElem (A.comp t c) (B.comp t c) s) (view st.norms c) := by
  induction T with
  | nil => intro st _; simp
  | cons t T' ih =>
    intro st h
    rw [List.foldl_cons, List.foldl_cons,
      ih _ (goodLen_foldl_inner A B athr rthr vb t A.numComponents _ st h)]
    congr 1
    rw [view_foldl_inner A B athr rthr vb t A.numComponents (List.range A.numComponents)
      (List.nodup_range _) (fun x hx => List.mem_range.mp hx) st h c,
      if_pos (List.mem_range.mpr hc)]

/-- Decomposition of the scan: the six norm vectors at any in-range
component `c` are exactly the per-component scalar accumulation
`compScan` over the tuples. -/
theorem view_scan (A B : DataArray) (athr rthr : ℚ) (vb : Bool) (c : ℕ)
    (hc : c < A.numComponents) :
    view (scan A B athr rthr vb).norms c = compScan A B c := by
  rw [scan, view_scan_aux A B athr rthr vb c hc (List.range A.numTuples)
    ⟨initNorms A.numComponents, []⟩ (goodLen_initNorms A.numComponents)]
  simp [view_initNorms, compScan]

/-! ## Diagnostics stream lemmas -/

theorem diags_stepTC (A B : DataArray) (athr rthr : ℚ) (vb : Bool) (t c : ℕ)
    (st : ScanState) :
    (stepTC A B athr rthr vb t c st).diags = st.diags ++ emitAt A B athr rthr vb t c := by
  simp only [stepTC, emitAt]
  split <;> simp

theorem diags_foldl_inner (A B : DataArray) (athr rthr : ℚ) (vb : Bool) (t : ℕ)
    (L : List ℕ) :
    ∀ st : ScanState,
      (L.foldl (fun st c => stepTC A B athr rthr vb t c st) st).diags =
        st.diags ++ (L.map (emitAt A B athr rthr vb t)).flatten := by
  induction L with
  | nil => intro st; simp
  | cons c0 L' ih =>
    intro st
    rw [List.foldl_cons, ih, diags_stepTC, List.map_cons, List.flatten_cons, List.append_assoc]

theorem diags_scan_aux (A B : DataArray) (athr rthr : ℚ) (vb : Bool) (T : List ℕ) :
    ∀ st : ScanState,
      (T.foldl (fun st tuple_idx => (List.range A.numComponents).foldl
          (fun st component_idx => stepTC A B athr rthr vb tuple_idx component_idx st) st)
        st).diags =
      st.diags ++ (T.map (fun t =>
        ((List.range A.numComponents).map (emitAt A B athr rthr vb t)).flatten)).flatten := by
  induction T with
  | nil => intro st; simp
  | cons t T' ih =>
    intro st
    rw [List.foldl_cons, ih, diags_foldl_inner, List.map_cons, List.flatten_cons,
      List.append_assoc]

/-- The diagnostic stream of the whole scan, in loop order: the
concatenation over tuples, then components, of each element's emission. -/
theorem diags_scan (A B : DataArray) (athr rthr : ℚ) (vb : Bool) :
    (scan A B athr rthr vb).diags =
      ((List.range A.numTuples).map (fun t =>
        ((List.range A.numComponents).map (emitAt A B athr rthr vb t)).flatten)).flatten := by
  rw [scan, diags_scan_aux]
  simp

theorem EDouble.ble_refl (x : EDouble) : ble x x = true := by
  cases x <;> simp [ble]

theorem EDouble.ble_self_emax (x y : EDouble) : ble x (emax x y) = true := by
  cases x <;> cases y <;> simp [ble, emax, le_max_left]

theorem EDouble.ble_zero_add {x y : EDouble} (hx : ble (fin 0) x = true)
    (hy : ble (fin 0) y = true) : ble (fin 0) (add x y) = true := by
  cases x <;> cases y <;> simp_all [ble, add] <;> positivity

theorem EDouble.ble_zero_mul_self (y : EDouble) : ble (fin 0) (mul y y) = true := by
  cases y <;> simp [ble, mul, mul_self_nonneg]

theorem EDouble.ble_zero_emax {x y : EDouble} (hx : ble (fin 0) x = true)
    (hy : ble (fin 0) y = true) : ble (fin 0) (emax x y) = true := by
  cases x <;> cases y <;> simp_all [ble, emax, le_max_iff]

theorem relErr_nonneg (a_comp b_comp : ℚ) : ble (.fin 0) (relErr a_comp b_comp) = true := by
  rw [relErr]
  split
  · simp
  · split
    · simp [ble]
    · simp only [ble_fin, decide_eq_true_eq]
      exact div_nonneg (abs_nonneg _) (le_min (abs_nonneg _) (abs_nonneg _))

theorem maxElement_eq_none_iff (l : List EDouble) : maxElement l = none ↔ l = [] := by
  cases l <;> simp [maxElement]

theorem foldl_emax_replicate_zero (n : ℕ) :
    (List.replicate n (EDouble.fin 0)).foldl emax (.fin 0) = .fin 0 := by
  induction n with
  | zero => rfl
  | succ m ih => rw [List.replicate_succ, List.foldl_cons, emax_fin, max_self, ih]

theorem maxElement_replicate_zero (k : ℕ) (hk : 1 ≤ k) :
    maxElement (List.replicate k (.fin 0)) = some (.fin 0) := by
  obtain ⟨m, rfl⟩ := Nat.exists_eq_add_of_le hk
  rw [show 1 + m = m + 1 by omega, List.replicate_succ, maxElement,
    foldl_emax_replicate_zero]

theorem eq_replicate_zero_of_getD (l : List EDouble) (k : ℕ) (hlen : l.length = k)
    (h : ∀ c < k, l.getD c (.fin 0) = .fin 0) : l = List.replicate k (.fin 0) := by
  apply List.ext_getElem (by simp [hlen])
  intro n h1 h2
  have hn := h n (hlen ▸ h1)
  rw [List.getD_eq_getElem _ _ h1] at hn
  simp [hn]

theorem run_eq_decide (A B : DataArray) (athr rthr : ℚ) (vb : Bool)
    (hna : A.numeric = true) (hnb : B.numeric = true)
    (hT : A.numTuples = B.numTuples) (hC : A.numComponents = B.numComponents) :
    run A B athr rthr vb =
      match maxElement (scan A B athr rthr vb).norms.abs_err_norm_max,
            maxElement (scan A B athr rthr vb).norms.rel_err_norm_max with
      | some m_abs, some m_rel =>
          .ok (some (blt (.fin athr) m_abs && blt (.fin rthr) m_rel))
      | _, _ => .ok none := by
  simp [run, hna, hnb, hT, hC]

/-- C2: the per-element relative error follows the exact three-way policy:
zero whenever the absolute error is zero (including the both-zero case),
`+infinity` when the values differ and one of them is zero, and otherwise
the absolute error divided by the smaller magnitude; in particular
rel_err(5,5) = 0, rel_err(0,1) = +infinity, rel_err(0,0) = 0 and
rel_err(2,4) = 1. -/
theorem rel_err_three_way_policy (av bv : ℚ) :
    (|av - bv| = 0 → relErr av bv = .fin 0) ∧
    (|av - bv| ≠ 0 → (av = 0 ∨ bv = 0) → relErr av bv = .inf) ∧
    (|av - bv| ≠ 0 → av ≠ 0 → bv ≠ 0 →
      relErr av bv = .fin (|av - bv| / min |av| |bv|)) ∧
    relErr 5 5 = .fin 0 ∧ relErr 0 1 = .inf ∧ relErr 0 0 = .fin 0 ∧ relErr 2 4 = .fin 1 := by
  refine ⟨fun h => by simp [relErr, h], fun h h2 => by simp [relErr, h, h2],
    fun h h1 h2 => by simp [relErr, h, h1, h2], by norm_num [relErr],
    by norm_num [relErr], by norm_num [relErr], by norm_num [relErr]⟩

theorem rel_err_three_way_policy_witness :
    relErr 3 3 = .fin 0 ∧ relErr 0 2 = .inf ∧ relErr 6 2 = .fin 2 :=
  ⟨(rel_err_three_way_policy 3 3).1 (by norm_num),
   (rel_err_three_way_policy 0 2).2.1 (by norm_num) (Or.inl rfl),
   by
     have h := (rel_err_three_way_policy 6 2).2.2.1 (by norm_num) (by norm_num) (by norm_num)
     rw [h]; norm_num⟩

/-- C5: when the tuple counts of the two numeric arrays differ, or the
tuple counts agree but the component arities differ, the run aborts with
failure before the scan, reporting the corresponding shape error with
both differing values; no scan state appears in the result. -/
theorem shape_mismatch_aborts (A B : DataArray) (athr rthr : ℚ) (vb : Bool)
    (hna : A.numeric = true) (hnb : B.numeric = true) :
    (A.numTuples ≠ B.numTuples →
      run A B athr rthr vb = .error (.tuplesDiffer A.numTuples B.numTuples)) ∧
    (A.numTuples = B.numTuples → A.numComponents ≠ B.numComponents →
      run A B athr rthr vb = .error (.componentsDiffer A.numComponents B.numComponents)) := by
  constructor
  · intro h; simp [run, hna, hnb, h]
  · intro hT h; simp [run, hna, hnb, hT, h]

theorem shape_mismatch_aborts_witness :
    run (constArr 10 0) (constArr 11 0) 1 1 false = .error (.tuplesDiffer 10 11) ∧
    run ⟨1, 2, true, fun _ _ => 0⟩ (constArr 1 0) 1 1 false =
      .error (.componentsDiffer 2 1) :=
  ⟨(shape_mismatch_aborts (constArr 10 0) (constArr 11 0) 1 1 false rfl rfl).1 (by decide),
   (shape_mismatch_aborts ⟨1, 2, true, fun _ _ => 0⟩ (constArr 1 0) 1 1 false rfl rfl).2
     rfl (by decide)⟩

/-- C1: once both arrays validate (numeric, equal tuple counts, equal
arities) and the two maximum-norm vectors have maxima `m_abs` and `m_rel`
(each the maximum over components of the accumulated per-component
maxima, maximized independently), the run exits with failure status
exactly when `m_abs > abs_err_thr` and `m_rel > rel_err_thr`, and with
success status otherwise. -/
theorem verdict_and_rule (A B : DataArray) (athr rthr : ℚ) (vb : Bool)
    (hna : A.numeric = true) (hnb : B.numeric = true)
    (hT : A.numTuples = B.numTuples) (hC : A.numComponents = B.numComponents)
    (m_abs m_rel : EDouble)
    (habs : maxElement (scan A B athr rthr vb).norms.abs_err_norm_max = some m_abs)
    (hrel : maxElement (scan A B athr rthr vb).norms.rel_err_norm_max = some m_rel) :
    (run A B athr rthr vb = .ok (some true) ↔
      (blt (.fin athr) m_abs = true ∧ blt (.fin rthr) m_rel = true)) ∧
    (run A B athr rthr vb = .ok (some false) ↔
      ¬(blt (.fin athr) m_abs = true ∧ blt (.fin rthr) m_rel = true)) := by
  rw [run_eq_decide A B athr rthr vb hna hnb hT hC, habs, hrel]
  constructor
  · simp [Bool.and_eq_true]
  · simp [Bool.and_eq_true, not_and_or]

theorem range_one_eq : List.range 1 = [0] := by simp [List.range_succ]

theorem verdict_and_rule_witness :
    run (constArr 1 1) (constArr 1 (1 + 1/100000)) (1/100000000) (1/100000000) false
      = .ok (some true) ∧
    run (constArr 1 1000000000000000) (constArr 1 (1000000000000000 + 1/100000))
      (1/100000000) (1/100000000) false = .ok (some false) :=
  ⟨(verdict_and_rule (constArr 1 1) (constArr 1 (1 + 1/100000))
      (1/100000000) (1/100000000) false rfl rfl rfl rfl
      (.fin (1/100000)) (.fin (1/100000))
      (by
        simp only [scan, stepTC, relErr, upd, initNorms, constArr, maxElement, range_one_eq,
          List.foldl_cons, List.foldl_nil, List.replicate]
        norm_num [max_def, min_def, abs])
      (by
        simp only [scan, stepTC, relErr, upd, initNorms, constArr, maxElement, range_one_eq,
          List.foldl_cons, List.foldl_nil, List.replicate]
        norm_num [max_def, min_def, abs])).1.mpr ⟨by norm_num, by norm_num⟩,
   (verdict_and_rule (constArr 1 1000000000000000) (constArr 1 (1000000000000000 + 1/100000))
      (1/100000000) (1/100000000) false rfl rfl rfl rfl
      (.fin (1/100000)) (.fin (1/100000000000000000000))
      (by
        simp only [scan, stepTC, relErr, upd, initNorms, constArr, maxElement, range_one_eq,
          List.foldl_cons, List.foldl_nil, List.replicate]
        norm_num [max_def, min_def, abs])
      (by
        simp only [scan, stepTC, relErr, upd, initNorms, constArr, maxElement, range_one_eq,
          List.foldl_cons, List.foldl_nil, List.replicate]
        norm_num [max_def, min_def, abs])).2.mpr (by norm_num)⟩

/-- C9: for validated arrays the decision step is undefined (it
dereferences `max_element` over empty norm vectors) exactly when the
component arity is zero; under the precondition of arity at least one the
undefined branch is unreachable and the run always produces a verdict. -/
theorem verdict_defined_iff_arity_pos (A B : DataArray) (athr rthr : ℚ) (vb : Bool)
    (hna : A.numeric = true) (hnb : B.numeric = true)
    (hT : A.numTuples = B.numTuples) (hC : A.numComponents = B.numComponents) :
    (run A B athr rthr vb = .ok none ↔ A.numComponents = 0) ∧
    (1 ≤ A.numComponents → ∃ verdict : Bool, run A B athr rthr vb = .ok (some verdict)) := by
  have hg := goodLen_scan A B athr rthr vb
  obtain ⟨h1, h2, h3, h4, h5, h6⟩ := hg
  rw [run_eq_decide A B athr rthr vb hna hnb hT hC]
  rcases habs : (scan A B athr rthr vb).norms.abs_err_norm_max with _ | ⟨x, xs⟩
  · have hk : A.numComponents = 0 := by rw [← h3, habs]; rfl
    have hrel : (scan A B athr rthr vb).norms.rel_err_norm_max = [] := by
      have := h6.trans hk
      exact List.eq_nil_of_length_eq_zero this
    simp [hrel, maxElement, hk]
  · have hk : A.numComponents ≠ 0 := by
      rw [← h3, habs]; simp
    rcases hrel : (scan A B athr rthr vb).norms.rel_err_norm_max with _ | ⟨y, ys⟩
    · exfalso
      apply hk
      rw [← h6, hrel]; rfl
    · simp [maxElement, hk]

theorem verdict_defined_iff_arity_pos_witness :
    run ⟨1, 0, true, fun _ _ => 0⟩ ⟨1, 0, true, fun _ _ => 0⟩ 1 1 false = .ok none ∧
    ∃ verdict : Bool, run (constArr 1 0) (constArr 1 0) 1 1 false = .ok (some verdict) :=
  ⟨(verdict_defined_iff_arity_pos ⟨1, 0, true, fun _ _ => 0⟩ ⟨1, 0, true, fun _ _ => 0⟩
      1 1 false rfl rfl rfl rfl).1.mpr rfl,
   (verdict_defined_iff_arity_pos (constArr 1 0) (constArr 1 0) 1 1 false rfl rfl rfl rfl).2
     (by norm_num [constArr])⟩

/-- C10: for shape-compatible numeric arrays with zero tuples and
positive arity, the scan performs no accumulation (the state stays the
zero-initialized one with no diagnostics) and, for any non-negative
thresholds, the verdict passes. -/
theorem zero_tuples_pass (A B : DataArray) (athr rthr : ℚ) (vb : Bool)
    (hna : A.numeric = true) (hnb : B.numeric = true)
    (hTA : A.numTuples = 0) (hTB : B.numTuples = 0)
    (hC : A.numComponents = B.numComponents) (hk : 1 ≤ A.numComponents)
    (ha : 0 ≤ athr) (hr : 0 ≤ rthr) :
    scan A B athr rthr vb = ⟨initNorms A.numComponents, []⟩ ∧
    run A B athr rthr vb = .ok (some false) := by
  have hscan : scan A B athr rthr vb = ⟨initNorms A.numComponents, []⟩ := by
    rw [scan, hTA, List.range_zero, List.foldl_nil]
  refine ⟨hscan, ?_⟩
  rw [run_eq_decide A B athr rthr vb hna hnb (hTA.trans hTB.symm) hC, hscan]
  simp only [initNorms]
  rw [maxElement_replicate_zero _ hk]
  simp [decide_eq_false (not_lt.mpr ha)]

theorem zero_tuples_pass_witness :
    scan (constArr 0 7) (constArr 0 9) 1 1 true = ⟨initNorms 1, []⟩ ∧
    run (constArr 0 7) (constArr 0 9) 1 1 true = .ok (some false) :=
  zero_tuples_pass (constArr 0 7) (constArr 0 9) 1 1 true rfl rfl rfl rfl rfl
    (by norm_num [constArr]) (by norm_num) (by norm_num)

theorem stepElem_self_zero (a_comp : ℚ) : stepElem a_comp a_comp CompAcc.zero = CompAcc.zero := by
  simp [stepElem, relErr, CompAcc.zero]

theorem compScan_self (A : DataArray) (c : ℕ) : compScan A A c = CompAcc.zero := by
  rw [compScan]
  induction List.range A.numTuples with
  | nil => rfl
  | cons t T' ih => rw [List.foldl_cons, stepElem_self_zero, ih]

theorem scan_self_norms (A : DataArray) (athr rthr : ℚ) (vb : Bool) :
    (scan A A athr rthr vb).norms = initNorms A.numComponents := by
  obtain ⟨h1, h2, h3, h4, h5, h6⟩ := goodLen_scan A A athr rthr vb
  have hv : ∀ c < A.numComponents, view (scan A A athr rthr vb).norms c = CompAcc.zero := by
    intro c hc
    rw [view_scan A A athr rthr vb c hc, compScan_self]
  refine Norms.ext ?_ ?_ ?_ ?_ ?_ ?_ <;> simp only [initNorms]
  · exact eq_replicate_zero_of_getD _ _ h1 fun c hc => congrArg CompAcc.al1 (hv c hc)
  · exact eq_replicate_zero_of_getD _ _ h2 fun c hc => congrArg CompAcc.al2 (hv c hc)
  · exact eq_replicate_zero_of_getD _ _ h3 fun c hc => congrArg CompAcc.amax (hv c hc)
  · exact eq_replicate_zero_of_getD _ _ h4 fun c hc => congrArg CompAcc.rl1 (hv c hc)
  · exact eq_replicate_zero_of_getD _ _ h5 fun c hc => congrArg CompAcc.rl2 (hv c hc)
  · exact eq_replicate_zero_of_getD _ _ h6 fun c hc => congrArg CompAcc.rmax (hv c hc)

/-- C6: comparing a numeric dataset of positive arity to an exact copy of
itself yields all six norm vectors equal to the all-zero vectors of length
equal to the arity, and a passing verdict for any non-negative
thresholds. -/
theorem identity_comparison (A : DataArray) (athr rthr : ℚ) (vb : Bool)
    (hna : A.numeric = true) (hk : 1 ≤ A.numComponents) (ha : 0 ≤ athr) (hr : 0 ≤ rthr) :
    (scan A A athr rthr vb).norms = initNorms A.numComponents ∧
    run A A athr rthr vb = .ok (some false) := by
  refine ⟨scan_self_norms A athr rthr vb, ?_⟩
  rw [run_eq_decide A A athr rthr vb hna hna rfl rfl, scan_self_norms]
  simp only [initNorms]
  rw [maxElement_replicate_zero _ hk]
  simp [decide_eq_false (not_lt.mpr ha)]

theorem identity_comparison_witness :
    (scan (constArr 3 (5/7)) (constArr 3 (5/7)) 0 0 true).norms = initNorms 1 ∧
    run (constArr 3 (5/7)) (constArr 3 (5/7)) 0 0 true = .ok (some false) :=
  identity_comparison (constArr 3 (5/7)) 0 0 true rfl (by norm_num [constArr])
    (by norm_num) (by norm_num)

theorem stepElem_abs_symm (a_comp b_comp : ℚ) (s s' : CompAcc)
    (h1 : s.al1 = s'.al1) (h2 : s.al2 = s'.al2) (h3 : s.amax = s'.amax) :
    (stepElem a_comp b_comp s).al1 = (stepElem b_comp a_comp s').al1 ∧
    (stepElem a_comp b_comp s).al2 = (stepElem b_comp a_comp s').al2 ∧
    (stepElem a_comp b_comp s).amax = (stepElem b_comp a_comp s').amax := by
  refine ⟨?_, ?_, ?_⟩ <;> simp [stepElem, h1, h2, h3, abs_sub_comm a_comp b_comp]

theorem fold_abs_symm (A B : DataArray) (c : ℕ) (T : List ℕ) :
    ∀ s s' : CompAcc, s.al1 = s'.al1 → s.al2 = s'.al2 → s.amax = s'.amax →
      ((T.foldl (fun s t => stepElem (A.comp t c) (B.comp t c) s) s).al1 =
        (T.foldl (fun s t => stepElem (B.comp t c) (A.comp t c) s) s').al1) ∧
      ((T.foldl (fun s t => stepElem (A.comp t c) (B.comp t c) s) s).al2 =
        (T.foldl (fun s t => stepElem (B.comp t c) (A.comp t c) s) s').al2) ∧
      ((T.foldl (fun s t => stepElem (A.comp t c) (B.comp t c) s) s).amax =
        (T.foldl (fun s t => stepElem (B.comp t c) (A.comp t c) s) s').amax) := by
  induction T with
  | nil => exact fun s s' h1 h2 h3 => ⟨h1, h2, h3⟩
  | cons t T' ih =>
    intro s s' h1 h2 h3
    obtain ⟨g1, g2, g3⟩ := stepElem_abs_symm (A.comp t c) (B.comp t c) s s' h1 h2 h3
    rw [List.foldl_cons, List.foldl_cons]
    exact ih _ _ g1 g2 g3

/-- C7: the accumulated absolute-error L1 and max norms are symmetric
under swapping the two operand arrays. -/
theorem abs_error_symmetry (A B : DataArray) (athr rthr : ℚ) (vb : Bool) (c : ℕ)
    (hT : A.numTuples = B.numTuples) (hC : A.numComponents = B.numComponents)
    (hc : c < A.numComponents) :
    (scan A B athr rthr vb).norms.abs_err_norm_l1.getD c (.fin 0) =
      (scan B A athr rthr vb).norms.abs_err_norm_l1.getD c (.fin 0) ∧
    (scan A B athr rthr vb).norms.abs_err_norm_max.getD c (.fin 0) =
      (scan B A athr rthr vb).norms.abs_err_norm_max.getD c (.fin 0) := by
  have h1 := view_scan A B athr rthr vb c hc
  have h2 := view_scan B A athr rthr vb c (hC ▸ hc)
  have hsym :
      (compScan A B c).al1 = (compScan B A c).al1 ∧
      (compScan A B c).al2 = (compScan B A c).al2 ∧
      (compScan A B c).amax = (compScan B A c).amax := by
    rw [compScan, compScan, hT]
    exact fold_abs_symm A B c (List.range B.numTuples) CompAcc.zero CompAcc.zero rfl rfl rfl
  have e1 := (congrArg CompAcc.al1 h1).trans (hsym.1.trans (congrArg CompAcc.al1 h2).symm)
  have e3 := (congrArg CompAcc.amax h1).trans (hsym.2.2.trans (congrArg CompAcc.amax h2).symm)
  exact ⟨e1, e3⟩

theorem abs_error_symmetry_witness :
    (scan ⟨2, 1, true, fun t _ => if t = 0 then 1 else 5⟩
        ⟨2, 1, true, fun t _ => if t = 0 then 4 else 3⟩ 1 1 false).norms.abs_err_norm_l1.getD 0
        (.fin 0) =
      (scan ⟨2, 1, true, fun t _ => if t = 0 then 4 else 3⟩
        ⟨2, 1, true, fun t _ => if t = 0 then 1 else 5⟩ 1 1 false).norms.abs_err_norm_l1.getD 0
        (.fin 0) ∧
    (scan ⟨2, 1, true, fun t _ => if t = 0 then 1 else 5⟩
        ⟨2, 1, true, fun t _ => if t = 0 then 4 else 3⟩ 1 1 false).norms.abs_err_norm_max.getD 0
        (.fin 0) =
      (scan ⟨2, 1, true, fun t _ => if t = 0 then 4 else 3⟩
        ⟨2, 1, true, fun t _ => if t = 0 then 1 else 5⟩ 1 1 false).norms.abs_err_norm_max.getD 0
        (.fin 0) :=
  abs_error_symmetry ⟨2, 1, true, fun t _ => if t = 0 then 1 else 5⟩
    ⟨2, 1, true, fun t _ => if t = 0 then 4 else 3⟩ 1 1 false 0 rfl rfl (by norm_num)

theorem mem_emitAt_iff (A B : DataArray) (athr rthr : ℚ) (vb : Bool) (t c : ℕ) (d : Diag) :
    d ∈ emitAt A B athr rthr vb t c ↔
      ((blt (.fin athr) (.fin |A.comp t c - B.comp t c|) &&
          blt (.fin rthr) (relErr (A.comp t c) (B.comp t c)) && vb) = true ∧
        d = ⟨t, c, |A.comp t c - B.comp t c|, relErr (A.comp t c) (B.comp t c)⟩) := by
  rw [emitAt]
  split <;> simp_all

/-- C4: a per-element diagnostic for element `(t, c)` appears in the
diagnostic stream exactly when verbose output is on and both the absolute
and the relative error strictly exceed their thresholds. -/
theorem diagnostic_emission_iff (A B : DataArray) (athr rthr : ℚ) (vb : Bool) (t c : ℕ)
    (ht : t < A.numTuples) (hc : c < A.numComponents) :
    ((⟨t, c, |A.comp t c - B.comp t c|, relErr (A.comp t c) (B.comp t c)⟩ : Diag) ∈
        (scan A B athr rthr vb).diags) ↔
      (vb = true ∧ athr < |A.comp t c - B.comp t c| ∧
        blt (.fin rthr) (relErr (A.comp t c) (B.comp t c)) = true) := by
  rw [diags_scan]
  simp only [List.mem_flatten, List.mem_map, List.mem_range]
  constructor
  · rintro ⟨l, ⟨t', ht', rfl⟩, hl⟩
    obtain ⟨l', hl'mem, hd⟩ := List.mem_flatten.mp hl
    obtain ⟨c', hc'r, rfl⟩ := List.mem_map.mp hl'mem
    obtain ⟨hcond, heq⟩ := (mem_emitAt_iff A B athr rthr vb t' c' _).mp hd
    injection heq with e1 e2 e3 e4
    subst e1
    subst e2
    simp only [Bool.and_eq_true, blt_fin, decide_eq_true_eq] at hcond
    exact ⟨hcond.2, hcond.1.1, hcond.1.2⟩
  · rintro ⟨hvb, habs, hrel⟩
    refine ⟨_, ⟨t, ht, rfl⟩, List.mem_flatten.mpr
      ⟨_, List.mem_map.mpr ⟨c, List.mem_range.mpr hc, rfl⟩, ?_⟩⟩
    exact (mem_emitAt_iff A B athr rthr vb t c _).mpr ⟨by simp [hvb, habs, hrel], rfl⟩

theorem diagnostic_emission_iff_witness :
    (⟨0, 0, |(1:ℚ) - 4|, relErr 1 4⟩ : Diag) ∈
      (scan (constArr 1 1) (constArr 1 4) 1 1 true).diags :=
  (diagnostic_emission_iff (constArr 1 1) (constArr 1 4) 1 1 true 0 0 (by norm_num [constArr])
    (by norm_num [constArr])).mpr
    ⟨rfl, by norm_num [constArr], by norm_num [constArr, relErr, min_def, abs]⟩

theorem getD_nonneg {l : List EDouble} (h : vecNonneg l) (c : ℕ) :
    ble (.fin 0) (l.getD c (.fin 0)) = true := by
  by_cases hc : c < l.length
  · have hm : l.getD c (.fin 0) ∈ l := by
      rw [List.getD_eq_getElem l _ hc]
      exact List.getElem_mem _
    exact h _ hm
  · rw [List.getD_eq_default l _ (le_of_not_lt hc)]
    simp

theorem vecNonneg_upd {l : List EDouble} (h : vecNonneg l) (c : ℕ)
    {f : EDouble → EDouble} (hf : ∀ x, ble (.fin 0) x = true → ble (.fin 0) (f x) = true) :
    vecNonneg (upd l c f) := by
  intro x hx
  rcases List.mem_or_eq_of_mem_set hx with hx' | rfl
  · exact h x hx'
  · exact hf _ (getD_nonneg h c)

theorem vecNonneg_replicate_zero (k : ℕ) : vecNonneg (List.replicate k (.fin 0)) := by
  intro x hx
  rw [List.eq_of_mem_replicate hx]
  simp

theorem normsNonneg_initNorms (k : ℕ) : normsNonneg (initNorms k) :=
  ⟨vecNonneg_replicate_zero k, vecNonneg_replicate_zero k, vecNonneg_replicate_zero k,
   vecNonneg_replicate_zero k, vecNonneg_replicate_zero k, vecNonneg_replicate_zero k⟩

theorem normsNonneg_stepTC (A B : DataArray) (athr rthr : ℚ) (vb : Bool) (t c : ℕ)
    (st : ScanState) (h : normsNonneg st.norms) :
    normsNonneg (stepTC A B athr rthr vb t c st).norms := by
  obtain ⟨n1, n2, n3, n4, n5, n6⟩ := h
  refine ⟨?_, ?_, ?_, ?_, ?_, ?_⟩
  · exact vecNonneg_upd n1 _ fun x hx => ble_zero_add hx (by simp [abs_nonneg])
  · exact vecNonneg_upd n2 _ fun x hx => ble_zero_add hx (by simp [mul_self_nonneg])
  · exact vecNonneg_upd n3 _ fun x hx => ble_zero_emax hx (by simp [abs_nonneg])
  · exact vecNonneg_upd n4 _ fun x hx => ble_zero_add hx (relErr_nonneg _ _)
  · exact vecNonneg_upd n5 _ fun x hx => ble_zero_add hx (ble_zero_mul_self _)
  · exact vecNonneg_upd n6 _ fun x hx => ble_zero_emax hx (relErr_nonneg _ _)

theorem normsNonneg_scan_aux (A B : DataArray) (athr rthr : ℚ) (vb : Bool) (T : List ℕ) :
    ∀ st : ScanState, normsNonneg st.norms →
      normsNonneg ((T.foldl (fun st tuple_idx => (List.range A.numComponents).foldl
          (fun st component_idx => stepTC A B athr rthr vb tuple_idx component_idx st) st)
        st)).norms := by
  induction T with
  | nil => intro st h; simpa using h
  | cons t T' ih =>
    intro st h
    rw [List.foldl_cons]
    apply ih
    generalize List.range A.numComponents = L
    induction L generalizing st with
    | nil => simpa using h
    | cons c L' ihL =>
      rw [List.foldl_cons]
      exact ihL _ (normsNonneg_stepTC A B athr rthr vb t c st h)

theorem normsNonneg_scan (A B : DataArray) (athr rthr : ℚ) (vb : Bool) :
    normsNonneg (scan A B athr rthr vb).norms :=
  normsNonneg_scan_aux A B athr rthr vb (List.range A.numTuples)
    ⟨initNorms A.numComponents, []⟩ (normsNonneg_initNorms A.numComponents)

theorem ble_getD_upd_emax (l : List EDouble) (c c' : ℕ) (y : EDouble) :
    ble (l.getD c' (.fin 0)) ((upd l c (fun x => emax x y)).getD c' (.fin 0)) = true := by
  by_cases hcc : c = c'
  · subst hcc
    by_cases hc : c < l.length
    · rw [getD_upd_self _ _ _ hc]
      exact ble_self_emax _ _
    · rw [upd, List.set_eq_of_length_le (le_of_not_lt hc)]
      exact ble_refl _
  · rw [getD_upd_ne _ _ _ _ hcc]
    exact ble_refl _

/-- C8: the six norm vectors keep length equal to the arity, all entries
stay non-negative from initialization through every step of the scan, and
each step leaves every `abs_max`/`rel_max` entry no smaller than before. -/
theorem scan_invariants (A B : DataArray) (athr rthr : ℚ) (vb : Bool)
    (t c k : ℕ) (st : ScanState) (hlen : goodLen st.norms k) (hnn : normsNonneg st.norms) :
    (goodLen (initNorms k) k ∧ normsNonneg (initNorms k)) ∧
    (goodLen (scan A B athr rthr vb).norms A.numComponents ∧
      normsNonneg (scan A B athr rthr vb).norms) ∧
    (goodLen (stepTC A B athr rthr vb t c st).norms k ∧
      normsNonneg (stepTC A B athr rthr vb t c st).norms) ∧
    (∀ c' : ℕ,
      ble (st.norms.abs_err_norm_max.getD c' (.fin 0))
          ((stepTC A B athr rthr vb t c st).norms.abs_err_norm_max.getD c' (.fin 0)) = true ∧
      ble (st.norms.rel_err_norm_max.getD c' (.fin 0))
          ((stepTC A B athr rthr vb t c st).norms.rel_err_norm_max.getD c' (.fin 0)) = true) := by
  refine ⟨⟨goodLen_initNorms k, normsNonneg_initNorms k⟩,
    ⟨goodLen_scan A B athr rthr vb, normsNonneg_scan A B athr rthr vb⟩,
    ⟨goodLen_stepTC A B athr rthr vb t c k st hlen,
      normsNonneg_stepTC A B athr rthr vb t c st hnn⟩, ?_⟩
  intro c'
  exact ⟨ble_getD_upd_emax _ c c' _, ble_getD_upd_emax _ c c' _⟩

theorem scan_invariants_witness :
    (goodLen (initNorms 1) 1 ∧ normsNonneg (initNorms 1)) ∧
    (goodLen (scan (constArr 1 1) (constArr 1 2) 1 1 false).norms
        (constArr 1 1).numComponents ∧
      normsNonneg (scan (constArr 1 1) (constArr 1 2) 1 1 false).norms) ∧
    (goodLen (stepTC (constArr 1 1) (constArr 1 2) 1 1 false 0 0 ⟨initNorms 1, []⟩).norms 1 ∧
      normsNonneg (stepTC (constArr 1 1) (constArr 1 2) 1 1 false 0 0 ⟨initNorms 1, []⟩).norms) ∧
    (∀ c' : ℕ,
      ble ((⟨initNorms 1, []⟩ : ScanState).norms.abs_err_norm_max.getD c' (.fin 0))
          ((stepTC (constArr 1 1) (constArr 1 2) 1 1 false 0 0
            ⟨initNorms 1, []⟩).norms.abs_err_norm_max.getD c' (.fin 0)) = true ∧
      ble ((⟨initNorms 1, []⟩ : ScanState).norms.rel_err_norm_max.getD c' (.fin 0))
          ((stepTC (constArr 1 1) (constArr 1 2) 1 1 false 0 0
            ⟨initNorms 1, []⟩).norms.rel_err_norm_max.getD c' (.fin 0)) = true) :=
  scan_invariants (constArr 1 1) (constArr 1 2) 1 1 false 0 0 1 ⟨initNorms 1, []⟩
    (goodLen_initNorms 1) (normsNonneg_initNorms 1)

/-- C3 (report finalization): the seventh printed vector — the one labelled
`rel l2-norm` — is the un-square-rooted accumulator `rel_err_norm_2_2`
itself, not its elementwise square root, while the printed absolute
L2 vector is square-rooted; at the concrete one-element input a = 1,
b = 3 the program prints 4 where the square-rooted value is 2. -/
theorem rel_l2_report_not_sqrt :
    (report (scan (constArr 1 1) (constArr 1 3) 1 1 false).norms).getD 6 [] =
      (scan (constArr 1 1) (constArr 1 3) 1 1 false).norms.rel_err_norm_2_2.map toEReal ∧
    (report (scan (constArr 1 1) (constArr 1 3) 1 1 false).norms).getD 2 [] =
      (scan (constArr 1 1) (constArr 1 3) 1 1 false).norms.abs_err_norm_2_2.map esqrt ∧
    (report (scan (constArr 1 1) (constArr 1 3) 1 1 false).norms).getD 6 [] ≠
      (scan (constArr 1 1) (constArr 1 3) 1 1 false).norms.rel_err_norm_2_2.map esqrt := by
  have hnorm : (scan (constArr 1 1) (constArr 1 3) 1 1 false).norms.rel_err_norm_2_2 =
      [.fin 4] := by
    simp only [scan, stepTC, relErr, upd, initNorms, constArr, range_one_eq,
      List.foldl_cons, List.foldl_nil, List.replicate]
    norm_num [max_def, min_def, abs]
  refine ⟨rfl, rfl, ?_⟩
  have h6 : (report (scan (constArr 1 1) (constArr 1 3) 1 1 false).norms).getD 6 [] =
      [toEReal (.fin 4)] := by rw [show (report (scan (constArr 1 1) (constArr 1 3) 1 1
        false).norms).getD 6 [] = (scan (constArr 1 1) (constArr 1 3) 1 1
        false).norms.rel_err_norm_2_2.map toEReal from rfl, hnorm]; rfl
  rw [h6, hnorm]
  have hsqrt : Real.sqrt ((4 : ℚ) : ℝ) = 2 := by
    rw [show ((4 : ℚ) : ℝ) = (2 : ℝ) ^ 2 by norm_num, Real.sqrt_sq (by norm_num : (0:ℝ) ≤ 2)]
  simp only [List.map_cons, List.map_nil, toEReal, esqrt, hsqrt, ne_eq, List.cons.injEq,
    and_true, EReal.coe_eq_coe_iff]
  norm_num
